import Mathlib

/-!
Verification of the register debug-rendering subsystem of
`libraries/tock-register-interface/src/debug.rs`.

The subsystem walks a compile-time list of per-field value decoders
(`FieldValueEnumSeq`, with shapes `FieldValueEnumNil` and
`FieldValueEnumCons`) in lock-step with two runtime cursors (over the
register's field names and field descriptors) to render a captured
register value as `Name { field1: value1, ... }`.

Embedding choices:
* The heterogeneous compile-time type list is embedded as an inductive
  list whose `cons` node carries that field's `try_from_value` decoder
  as a function `U → Option V` (`V` stands for the renderable form of a
  decoded variant; in the renderer instantiation it is the variant's
  debug string).
* The two `FnMut` closures passed to `recurse_try_from_value` are
  embedded as explicit state transformers; a Rust panic (the
  `unwrap()` on an exhausted iterator) is embedded as `Except.error`,
  which aborts the remaining computation exactly as unwinding does.
* The value handed to the sink closure (`&dyn fmt::Debug`, either the
  decoded variant or the numeric value) is embedded as `Rendered`.
* Machine integers are embedded as `Nat`; the code performs no
  arithmetic on them other than the field-extraction read.
-/

namespace TockRegisterDebug

/-- The value passed to the sink closure `f` for one node: either the
decoded enum variant (when `try_from_value` succeeded) or the raw
numeric value returned by the producer `data`. -/
inductive Rendered (U V : Type) where
  | variant : V → Rendered U V
  | raw : U → Rendered U V

/-- The debug sequence of field enum types, embedded as data:
`nil` is `FieldValueEnumNil`, `cons h t` is
`FieldValueEnumCons<U, H, T>` where `h` is the head type's
`H.try_from_value` decoder. -/
inductive FieldValueEnumSeq (U V : Type) where
  | nil : FieldValueEnumSeq U V
  | cons : (U → Option V) → FieldValueEnumSeq U V → FieldValueEnumSeq U V

/-- The number of nodes of the chain (the number of `cons` cells,
i.e. the chain length `N`). -/
def FieldValueEnumSeq.length {U V : Type} : FieldValueEnumSeq U V → Nat
  | FieldValueEnumSeq.nil => 0
  | FieldValueEnumSeq.cons _ t => t.length + 1

/-- `FieldValueEnumSeq::recurse_try_from_value`, from
`debug.rs` lines 58-61 (`FieldValueEnumNil`) and 80-94
(`FieldValueEnumCons`).  `data` and `f` are the two `FnMut` closures,
embedded with explicit state `σ`; both may abort (a Rust panic inside
the closure), embedded as `Except.error`, which propagates.

The `nil` case does nothing.  The `cons` case calls `data` once,
matches `H::try_from_value` on the extracted value, calls `f` once
with either the variant or the raw value, and recurses into the
tail. -/
def recurse_try_from_value {U V σ : Type} (data : σ → Except String (U × σ))
    (f : σ → Rendered U V → Except String σ) :
    FieldValueEnumSeq U V → σ → Except String σ
  | FieldValueEnumSeq.nil, s => Except.ok s
  | FieldValueEnumSeq.cons h t, s =>
    match data s with
    | Except.error e => Except.error e
    | Except.ok (extracted_value, s1) =>
      match (match h extracted_value with
             | some v => f s1 (Rendered.variant v)
             | none => f s1 (Rendered.raw extracted_value)) with
      | Except.error e => Except.error e
      | Except.ok s2 => recurse_try_from_value data f t s2

/-- The per-node decode outcome of `recurse_try_from_value`
(`debug.rs` lines 87-90): the decoded variant when `try_from_value`
returns `Some`, the raw extracted value otherwise. -/
def decodeOutcome {U V : Type} (h : U → Option V) (u : U) : Rendered U V :=
  match h u with
  | some v => Rendered.variant v
  | none => Rendered.raw u

/-- An observable event of a walk: one invocation of the producer
closure `data` (with the value it returned) or one invocation of the
sink closure `f` (with the value it received). -/
inductive Event (U V : Type) where
  | produce : U → Event U V
  | sink : Rendered U V → Event U V

/-- Whether an event is a producer invocation. -/
def Event.isProduce {U V : Type} : Event U V → Bool
  | Event.produce _ => true
  | Event.sink _ => false

/-- Whether an event is a sink invocation. -/
def Event.isSink {U V : Type} : Event U V → Bool
  | Event.produce _ => false
  | Event.sink _ => true

/-- Instrumentation state for observing a walk: the index of the next
producer call and the trace of closure invocations so far. -/
structure TraceState (U V : Type) where
  idx : Nat
  trace : List (Event U V)

/-- An instrumented producer closure: returns `vals i` on its `i`-th
invocation (counting from the starting index) and records the
invocation in the trace.  It never aborts. -/
def tracedData {U V : Type} (vals : Nat → U) (s : TraceState U V) :
    Except String (U × TraceState U V) :=
  Except.ok (vals s.idx, ⟨s.idx + 1, s.trace ++ [Event.produce (vals s.idx)]⟩)

/-- An instrumented sink closure: records each invocation, together
with the value received, in the trace.  It never aborts. -/
def tracedSink {U V : Type} (s : TraceState U V) (r : Rendered U V) :
    Except String (TraceState U V) :=
  Except.ok ⟨s.idx, s.trace ++ [Event.sink r]⟩

/-- The trace a walk over chain `c` is expected to leave when the
producer yields `vals i` at index `i`: one producer event then one
sink event per node, in node order. -/
def expectedTrace {U V : Type} (vals : Nat → U) :
    FieldValueEnumSeq U V → Nat → List (Event U V)
  | FieldValueEnumSeq.nil, _ => []
  | FieldValueEnumSeq.cons h t, i =>
    Event.produce (vals i) :: Event.sink (decodeOutcome h (vals i)) ::
      expectedTrace vals t (i + 1)

/-- A trace that strictly alternates producer-then-sink invocations,
one pair per node. -/
inductive IsAlternation {U V : Type} : List (Event U V) → Prop where
  | nil : IsAlternation []
  | pair (u : U) (r : Rendered U V) (rest : List (Event U V)) :
      IsAlternation rest →
      IsAlternation (Event.produce u :: Event.sink r :: rest)

/-- The subsequence of sink invocations of a trace, with the values
the sink received, in order. -/
def sinkEvents {U V : Type} : List (Event U V) → List (Rendered U V)
  | [] => []
  | Event.produce _ :: rest => sinkEvents rest
  | Event.sink r :: rest => r :: sinkEvents rest

/-- The per-node decode outcomes of a chain on producer values
`vals`, starting at index `i`: what the sink is expected to receive,
node by node. -/
def renderedOutcomes {U V : Type} (vals : Nat → U) :
    FieldValueEnumSeq U V → Nat → List (Rendered U V)
  | FieldValueEnumSeq.nil, _ => []
  | FieldValueEnumSeq.cons h t, i =>
    decodeOutcome h (vals i) :: renderedOutcomes vals t (i + 1)

/-- Modelled from the spec: the field-access layer
(`crate::fields::Field`, not under `src/`) supplies, per field, a bit
mask and shift and a `read(raw) -> numeric` capability that extracts
just that field's bits. -/
structure Field where
  mask : Nat
  shift : Nat

/-- Modelled from the spec: `Field::read` maps a raw register value to
the field's numeric value by shifting the field down and masking. -/
def Field.read (fld : Field) (value : Nat) : Nat :=
  (value >>> fld.shift) &&& fld.mask

/-- Modelled from the spec: the renderable form of a value handed to
the sink.  A decoded variant renders by its variant name (its debug
representation, carried here as the `String` the chain's decoder
produced); a raw numeric value renders in the underlying integer
type's default textual form (decimal). -/
def Rendered.format : Rendered Nat String → String
  | Rendered.variant v => v
  | Rendered.raw u => toString u

/-- Modelled from the spec: the aggregate builder used by `fmt`
(`core::fmt::Formatter::debug_struct`, not under `src/`).  It is
opened with the struct name and accumulates (field name, rendered
value) pairs in order. -/
structure DebugStruct where
  name : String
  fields : List (String × String)

/-- Modelled from the spec: `DebugStruct::field` appends one
(name, value) pair to the aggregate. -/
def DebugStruct.field (ds : DebugStruct) (nm : String) (val : String) : DebugStruct :=
  ⟨ds.name, ds.fields ++ [(nm, val)]⟩

/-- Modelled from the spec: `DebugStruct::finish` renders the
aggregate as `Name { field1: value1, field2: value2 }`, or just
`Name` when no field was emitted. -/
def DebugStruct.finish (ds : DebugStruct) : String :=
  match ds.fields with
  | [] => ds.name
  | _ :: _ =>
    ds.name ++ " \x7b " ++
      String.intercalate ", " (ds.fields.map (fun p => p.1 ++ ": " ++ p.2)) ++
      " \x7d"

/-- The statically known debug information of one register type
(the `RegisterDebugInfo` trait, `debug.rs` lines 109-149), embedded
as a record: the register `name()`, the ordered `field_names()`, the
ordered `fields()` descriptors, and the `FieldValueEnumTypes`
decoder chain. -/
structure RegisterDebugInfo where
  name : String
  field_names : List String
  fields : List Field
  fieldValueEnumTypes : FieldValueEnumSeq Nat String

/-- `RegisterDebugValue` (`debug.rs` lines 161-168): a captured copy
of the register value plus its register type's debug information (a
phantom type parameter in the source, an explicit field here). -/
structure RegisterDebugValue where
  data : Nat
  reg : RegisterDebugInfo

/-- The state threaded through the two closures of
`RegisterDebugValue::fmt`: the snapshot's stored value (captured by
reference by the closures), the `field_names()` iterator cursor, the
`fields()` iterator cursor, and the aggregate built so far. -/
structure FmtState where
  self_data : Nat
  names : List String
  fields : List Field
  ds : DebugStruct

/-- The `data` closure of `fmt` (`debug.rs` line 193):
`|| fields.next().unwrap().read(self.data)`.  An exhausted `fields`
cursor makes `unwrap()` abort. -/
def fmtData (s : FmtState) : Except String (Nat × FmtState) :=
  match s.fields with
  | [] => Except.error "called Option::unwrap() on a None value"
  | fld :: rest => Except.ok (fld.read s.self_data, ⟨s.self_data, s.names, rest, s.ds⟩)

/-- The `debug_field` closure of `fmt` (`debug.rs` lines 194-196):
`|f| debug_struct.field(names.next().unwrap(), f)`.  An exhausted
`names` cursor makes `unwrap()` abort. -/
def fmtDebugField (s : FmtState) (r : Rendered Nat String) : Except String FmtState :=
  match s.names with
  | [] => Except.error "called Option::unwrap() on a None value"
  | nm :: rest =>
    Except.ok ⟨s.self_data, rest, s.fields, DebugStruct.field s.ds nm (Rendered.format r)⟩

/-- `RegisterDebugValue`'s `fmt` (`debug.rs` lines 176-202): open a
`debug_struct` named `E::name()`, take cursors over `E::field_names()`
and `E::fields()`, drive `recurse_try_from_value` with the two
closures, and finish the aggregate.  `Except.error` is the Rust panic
of an `unwrap()` on an exhausted cursor. -/
def RegisterDebugValue.fmt (self : RegisterDebugValue) : Except String String :=
  match recurse_try_from_value fmtData fmtDebugField self.reg.fieldValueEnumTypes
      ⟨self.data, self.reg.field_names, self.reg.fields, ⟨self.reg.name, []⟩⟩ with
  | Except.error e => Except.error e
  | Except.ok s => Except.ok (DebugStruct.finish s.ds)

/-- Whether a computation aborted (the embedded Rust panic). -/
def excIsError {α : Type} : Except String α → Bool
  | Except.error _ => true
  | Except.ok _ => false

/-- The spec-side rendering: the ordered (field name, representation)
pairs obtained by zipping the chain, the field names and the field
descriptors, decoding each field's extracted value.  Consumes only as
many names and fields as the chain has nodes. -/
def specPairs (d : Nat) :
    FieldValueEnumSeq Nat String → List String → List Field → List (String × String)
  | FieldValueEnumSeq.nil, _, _ => []
  | FieldValueEnumSeq.cons h t, nm :: nms, fld :: flds =>
    (nm, (decodeOutcome h (fld.read d)).format) :: specPairs d t nms flds
  | FieldValueEnumSeq.cons _ _, [], _ => []
  | FieldValueEnumSeq.cons _ _, _ :: _, [] => []

/-- The rendering as a pure function of the captured raw value and
the descriptor. -/
def renderPure (E : RegisterDebugInfo) (d : Nat) : String :=
  DebugStruct.finish ⟨E.name, specPairs d E.fieldValueEnumTypes E.field_names E.fields⟩

/-- Snapshot construction: copy the hardware read result observed at
time `t` of the hardware history `hw`; the snapshot thereafter owns
that copy and holds the descriptor. -/
def captureSnapshot (E : RegisterDebugInfo) (hw : Nat → Nat) (t : Nat) :
    RegisterDebugValue :=
  ⟨hw t, E⟩

/-- Two renderings of the same snapshot, in sequence. -/
def renderTwice (s : RegisterDebugValue) : Except String String × Except String String :=
  (RegisterDebugValue.fmt s, RegisterDebugValue.fmt s)

/-- The end-to-end example descriptor: register `R` with fields
`f0` (no symbolic variants), `f1` (variants X=0, Y=1) and
`f2` (variant P=3), laid out as bits 0-3, 4-5 and 6-9. -/
def exampleR : RegisterDebugInfo where
  name := "R"
  field_names := ["f0", "f1", "f2"]
  fields := [⟨15, 0⟩, ⟨3, 4⟩, ⟨15, 6⟩]
  fieldValueEnumTypes :=
    FieldValueEnumSeq.cons (fun _ => none)
      (FieldValueEnumSeq.cons
        (fun u => if u = 0 then some "X" else if u = 1 then some "Y" else none)
        (FieldValueEnumSeq.cons (fun u => if u = 3 then some "P" else none)
          FieldValueEnumSeq.nil))

/-- Whether a sink value is the decoded-variant form. -/
def Rendered.isVariant {U V : Type} : Rendered U V → Bool
  | Rendered.variant _ => true
  | Rendered.raw _ => false

/-- Whether a sink value is the raw numeric form. -/
def Rendered.isRaw {U V : Type} : Rendered U V → Bool
  | Rendered.variant _ => false
  | Rendered.raw _ => true

theorem walk_traced {U V : Type} (vals : Nat → U) (c : FieldValueEnumSeq U V)
    (s : TraceState U V) :
    recurse_try_from_value (tracedData vals) tracedSink c s =
      Except.ok ⟨s.idx + c.length, s.trace ++ expectedTrace vals c s.idx⟩ := by
  induction c generalizing s with
  | nil => simp [recurse_try_from_value, FieldValueEnumSeq.length, expectedTrace]
  | cons h t ih =>
    cases hh : h (vals s.idx) with
    | some v =>
      simp [recurse_try_from_value, tracedData, tracedSink, hh, ih,
        expectedTrace, FieldValueEnumSeq.length, decodeOutcome]
      omega
    | none =>
      simp [recurse_try_from_value, tracedData, tracedSink, hh, ih,
        expectedTrace, FieldValueEnumSeq.length, decodeOutcome]
      omega

theorem expectedTrace_countP_produce {U V : Type} (vals : Nat → U)
    (c : FieldValueEnumSeq U V) (i : Nat) :
    (expectedTrace vals c i).countP Event.isProduce = c.length := by
  induction c generalizing i with
  | nil => simp [expectedTrace, FieldValueEnumSeq.length]
  | cons h t ih =>
    simp [expectedTrace, FieldValueEnumSeq.length, List.countP_cons, Event.isProduce, ih]

theorem expectedTrace_countP_sink {U V : Type} (vals : Nat → U)
    (c : FieldValueEnumSeq U V) (i : Nat) :
    (expectedTrace vals c i).countP Event.isSink = c.length := by
  induction c generalizing i with
  | nil => simp [expectedTrace, FieldValueEnumSeq.length]
  | cons h t ih =>
    simp [expectedTrace, FieldValueEnumSeq.length, List.countP_cons, Event.isSink, ih]

theorem expectedTrace_alternation {U V : Type} (vals : Nat → U)
    (c : FieldValueEnumSeq U V) (i : Nat) :
    IsAlternation (expectedTrace vals c i) := by
  induction c generalizing i with
  | nil => exact IsAlternation.nil
  | cons h t ih => exact IsAlternation.pair _ _ _ (ih (i + 1))

theorem sinkEvents_expectedTrace {U V : Type} (vals : Nat → U)
    (c : FieldValueEnumSeq U V) (i : Nat) :
    sinkEvents (expectedTrace vals c i) = renderedOutcomes vals c i := by
  induction c generalizing i with
  | nil => simp [expectedTrace, renderedOutcomes, sinkEvents]
  | cons h t ih => simp [expectedTrace, renderedOutcomes, sinkEvents, ih]

/-- C1: for every decoder chain of length N ≥ 0, `recurse_try_from_value`
invokes the producer closure `data` exactly once per node and the sink
closure `f` exactly once per node, strictly alternating producer-then-sink,
in node order 0..N-1; the terminal `FieldValueEnumNil` shape performs zero
invocations of either closure and ends the walk. -/
theorem recurse_invokes_once_per_node_alternating {U V : Type}
    (c : FieldValueEnumSeq U V) (vals : Nat → U) :
    recurse_try_from_value (tracedData vals) tracedSink c ⟨0, []⟩ =
      Except.ok ⟨c.length, expectedTrace vals c 0⟩ ∧
    IsAlternation (expectedTrace vals c 0) ∧
    (expectedTrace vals c 0).countP Event.isProduce = c.length ∧
    (expectedTrace vals c 0).countP Event.isSink = c.length ∧
    recurse_try_from_value (tracedData vals) tracedSink FieldValueEnumSeq.nil
      (⟨0, []⟩ : TraceState U V) = Except.ok ⟨0, []⟩ := by
  refine ⟨?_, expectedTrace_alternation vals c 0,
    expectedTrace_countP_produce vals c 0, expectedTrace_countP_sink vals c 0, rfl⟩
  simpa using walk_traced vals c ⟨0, []⟩

/-- C2: at each node, the sink receives the decoded variant's renderable
form exactly when that node's `try_from_value` returns `Some` on the value
the producer yielded, and the raw numeric value unchanged otherwise;
exactly one of the two outcomes occurs per node (never zero, never both),
and a decode miss aborts nothing: the walk still completes. -/
theorem recurse_decode_hit_or_miss {U V : Type}
    (c : FieldValueEnumSeq U V) (vals : Nat → U) :
    (∃ st : TraceState U V,
      recurse_try_from_value (tracedData vals) tracedSink c ⟨0, []⟩ = Except.ok st ∧
      sinkEvents st.trace = renderedOutcomes vals c 0) ∧
    (∀ (h : U → Option V) (u : U),
      (∃ v, h u = some v ∧ decodeOutcome h u = Rendered.variant v) ∨
      (h u = none ∧ decodeOutcome h u = Rendered.raw u)) ∧
    (∀ (h : U → Option V) (u : U),
      Bool.xor (decodeOutcome h u).isVariant (decodeOutcome h u).isRaw = true) := by
  refine ⟨⟨⟨c.length, expectedTrace vals c 0⟩, ?_, sinkEvents_expectedTrace vals c 0⟩,
    ?_, ?_⟩
  · simpa using walk_traced vals c ⟨0, []⟩
  · intro h u
    cases hh : h u with
    | some v => exact Or.inl ⟨v, rfl, by simp [decodeOutcome, hh]⟩
    | none => exact Or.inr ⟨rfl, by simp [decodeOutcome, hh]⟩
  · intro h u
    cases hh : h u <;> simp [decodeOutcome, hh, Rendered.isVariant, Rendered.isRaw]

theorem walk_fmt_ok (c : FieldValueEnumSeq Nat String) (names : List String)
    (flds : List Field) (d : Nat) (ds : DebugStruct)
    (h1 : c.length ≤ names.length) (h2 : c.length ≤ flds.length) :
    recurse_try_from_value fmtData fmtDebugField c ⟨d, names, flds, ds⟩ =
      Except.ok ⟨d, names.drop c.length, flds.drop c.length,
        ⟨ds.name, ds.fields ++ specPairs d c names flds⟩⟩ := by
  induction c generalizing names flds ds with
  | nil => simp [recurse_try_from_value, FieldValueEnumSeq.length, specPairs]
  | cons h t ih =>
    cases names with
    | nil => simp [FieldValueEnumSeq.length] at h1
    | cons nm nms =>
      cases flds with
      | nil => simp [FieldValueEnumSeq.length] at h2
      | cons fld fs =>
        simp only [FieldValueEnumSeq.length] at h1 h2
        have h1' : t.length ≤ nms.length := by simpa using h1
        have h2' : t.length ≤ fs.length := by simpa using h2
        cases hh : h (fld.read d) with
        | some v =>
          simp [recurse_try_from_value, fmtData, fmtDebugField, hh,
            ih _ _ _ h1' h2', specPairs, decodeOutcome, DebugStruct.field,
            FieldValueEnumSeq.length, Rendered.format]
        | none =>
          simp [recurse_try_from_value, fmtData, fmtDebugField, hh,
            ih _ _ _ h1' h2', specPairs, decodeOutcome, DebugStruct.field,
            FieldValueEnumSeq.length, Rendered.format]

theorem walk_fmt_error (c : FieldValueEnumSeq Nat String) (names : List String)
    (flds : List Field) (d : Nat) (ds : DebugStruct)
    (h : names.length < c.length ∨ flds.length < c.length) :
    recurse_try_from_value fmtData fmtDebugField c ⟨d, names, flds, ds⟩ =
      Except.error "called Option::unwrap() on a None value" := by
  induction c generalizing names flds ds with
  | nil => simp [FieldValueEnumSeq.length] at h
  | cons hd t ih =>
    cases flds with
    | nil => simp [recurse_try_from_value, fmtData]
    | cons fld fs =>
      cases names with
      | nil =>
        cases hh : hd (fld.read d) with
        | some v => simp [recurse_try_from_value, fmtData, fmtDebugField, hh]
        | none => simp [recurse_try_from_value, fmtData, fmtDebugField, hh]
      | cons nm nms =>
        simp only [FieldValueEnumSeq.length, List.length_cons] at h
        have h' : nms.length < t.length ∨ fs.length < t.length := by omega
        cases hh : hd (fld.read d) with
        | some v =>
          simpa [recurse_try_from_value, fmtData, fmtDebugField, hh] using
            ih nms fs (DebugStruct.field ds nm (Rendered.format (Rendered.variant v))) h'
        | none =>
          simpa [recurse_try_from_value, fmtData, fmtDebugField, hh] using
            ih nms fs (DebugStruct.field ds nm (Rendered.format (Rendered.raw (fld.read d)))) h'

theorem walk_fmt_self_data (c : FieldValueEnumSeq Nat String) (s s' : FmtState)
    (h : recurse_try_from_value fmtData fmtDebugField c s = Except.ok s') :
    s'.self_data = s.self_data := by
  induction c generalizing s with
  | nil =>
    simp [recurse_try_from_value] at h
    rw [h]
  | cons hd t ih =>
    obtain ⟨d, names, flds, ds⟩ := s
    cases flds with
    | nil => simp [recurse_try_from_value, fmtData] at h
    | cons fld fs =>
      cases names with
      | nil =>
        cases hh : hd (fld.read d) <;>
          simp [recurse_try_from_value, fmtData, fmtDebugField, hh] at h
      | cons nm nms =>
        cases hh : hd (fld.read d) with
        | some v =>
          simp only [recurse_try_from_value, fmtData, fmtDebugField, hh] at h
          exact ih ⟨d, nms, fs, DebugStruct.field ds nm (Rendered.format (Rendered.variant v))⟩ h
        | none =>
          simp only [recurse_try_from_value, fmtData, fmtDebugField, hh] at h
          exact ih ⟨d, nms, fs, DebugStruct.field ds nm (Rendered.format (Rendered.raw (fld.read d)))⟩ h

theorem specPairs_length (d : Nat) (c : FieldValueEnumSeq Nat String)
    (names : List String) (flds : List Field)
    (h1 : c.length ≤ names.length) (h2 : c.length ≤ flds.length) :
    (specPairs d c names flds).length = c.length := by
  induction c generalizing names flds with
  | nil => simp [specPairs, FieldValueEnumSeq.length]
  | cons h t ih =>
    cases names with
    | nil => simp [FieldValueEnumSeq.length] at h1
    | cons nm nms =>
      cases flds with
      | nil => simp [FieldValueEnumSeq.length] at h2
      | cons fld fs =>
        simp only [FieldValueEnumSeq.length] at h1 h2
        have h1' : t.length ≤ nms.length := by simpa using h1
        have h2' : t.length ≤ fs.length := by simpa using h2
        simp [specPairs, FieldValueEnumSeq.length, ih _ _ h1' h2']

theorem fmt_ok_of_aligned (E : RegisterDebugInfo) (d : Nat)
    (h1 : E.fieldValueEnumTypes.length ≤ E.field_names.length)
    (h2 : E.fieldValueEnumTypes.length ≤ E.fields.length) :
    RegisterDebugValue.fmt ⟨d, E⟩ =
      Except.ok (DebugStruct.finish
        ⟨E.name, specPairs d E.fieldValueEnumTypes E.field_names E.fields⟩) := by
  unfold RegisterDebugValue.fmt
  rw [walk_fmt_ok E.fieldValueEnumTypes E.field_names E.fields d ⟨E.name, []⟩ h1 h2]
  rfl

theorem fmt_error_of_short (E : RegisterDebugInfo) (d : Nat)
    (h : E.field_names.length < E.fieldValueEnumTypes.length ∨
         E.fields.length < E.fieldValueEnumTypes.length) :
    RegisterDebugValue.fmt ⟨d, E⟩ =
      Except.error "called Option::unwrap() on a None value" := by
  unfold RegisterDebugValue.fmt
  rw [walk_fmt_error E.fieldValueEnumTypes E.field_names E.fields d ⟨E.name, []⟩ h]

/-- C3: rendering a `RegisterDebugValue` produces the aggregate tagged with
the descriptor's name holding one (name, value) pair per field in declared
order, pairing each field name with the decoded-or-raw representation of
that field's extracted value: variants by their variant name, misses in the
integer's default textual form (as collected by specPairs). -/
theorem fmt_renders_named_ordered_pairs (E : RegisterDebugInfo) (d : Nat)
    (h1 : E.field_names.length = E.fieldValueEnumTypes.length)
    (h2 : E.fields.length = E.fieldValueEnumTypes.length) :
    RegisterDebugValue.fmt ⟨d, E⟩ =
      Except.ok (DebugStruct.finish
        ⟨E.name, specPairs d E.fieldValueEnumTypes E.field_names E.fields⟩) :=
  fmt_ok_of_aligned E d (Nat.le_of_eq h1.symm) (Nat.le_of_eq h2.symm)

/-- Witness for C3 at the example descriptor and value 599. -/
theorem fmt_renders_named_ordered_pairs_witness :
    RegisterDebugValue.fmt ⟨599, exampleR⟩ =
      Except.ok (DebugStruct.finish ⟨exampleR.name,
        specPairs 599 exampleR.fieldValueEnumTypes exampleR.field_names exampleR.fields⟩) :=
  fmt_renders_named_ordered_pairs exampleR 599 rfl rfl

/-- C4: if either the field_names cursor or the fields cursor runs out
before the decoder chain is exhausted, rendering fails fatally with the
unwrap diagnostic rather than silently truncating or skipping fields. -/
theorem fmt_fatal_on_short_cursors (E : RegisterDebugInfo) (d : Nat)
    (h : E.field_names.length < E.fieldValueEnumTypes.length ∨
         E.fields.length < E.fieldValueEnumTypes.length) :
    RegisterDebugValue.fmt ⟨d, E⟩ =
      Except.error "called Option::unwrap() on a None value" :=
  fmt_error_of_short E d h

/-- Witness for C4: the example chain with only one field name aborts. -/
theorem fmt_fatal_on_short_cursors_witness :
    RegisterDebugValue.fmt
        ⟨599, ⟨"R", ["f0"], [⟨15, 0⟩, ⟨3, 4⟩, ⟨15, 6⟩], exampleR.fieldValueEnumTypes⟩⟩ =
      Except.error "called Option::unwrap() on a None value" :=
  fmt_fatal_on_short_cursors
    ⟨"R", ["f0"], [⟨15, 0⟩, ⟨3, 4⟩, ⟨15, 6⟩], exampleR.fieldValueEnumTypes⟩ 599
    (Or.inl (by decide))

/-- C5: under the alignment invariant (both slices as long as the chain),
rendering is total — the fatal unwrap path is unreachable — and the result
is the pure function renderPure of the captured raw value and the
descriptor. -/
theorem fmt_total_under_invariant (E : RegisterDebugInfo) (d : Nat)
    (h1 : E.field_names.length = E.fieldValueEnumTypes.length)
    (h2 : E.fields.length = E.fieldValueEnumTypes.length) :
    RegisterDebugValue.fmt ⟨d, E⟩ = Except.ok (renderPure E d) ∧
    excIsError (RegisterDebugValue.fmt ⟨d, E⟩) = false := by
  have hk : RegisterDebugValue.fmt ⟨d, E⟩ = Except.ok (renderPure E d) :=
    fmt_ok_of_aligned E d (Nat.le_of_eq h1.symm) (Nat.le_of_eq h2.symm)
  exact ⟨hk, by rw [hk]; rfl⟩

/-- Witness for C5 at the example descriptor and value 0. -/
theorem fmt_total_under_invariant_witness :
    RegisterDebugValue.fmt ⟨0, exampleR⟩ = Except.ok (renderPure exampleR 0) ∧
    excIsError (RegisterDebugValue.fmt ⟨0, exampleR⟩) = false :=
  fmt_total_under_invariant exampleR 0 rfl rfl

/-- C6: the end-to-end example: register R with fields f0 (passthrough),
f1 (variants X=0, Y=1), f2 (variant P=3) and raw field values (7, 1, 9)
renders exactly as R \x7b f0: 7, f1: Y, f2: 9 \x7d. -/
theorem example_register_renders :
    exampleR.fields.map (fun fld => fld.read 599) = [7, 1, 9] ∧
    RegisterDebugValue.fmt ⟨599, exampleR⟩ =
      Except.ok "R \x7b f0: 7, f1: Y, f2: 9 \x7d" :=
  ⟨rfl, rfl⟩

/-- C7: rendering is deterministic and isolated from hardware: two
renderings of one snapshot agree, a captured snapshot renders from the copy
taken at construction time, and any hardware history agreeing at the
capture instant gives identical output regardless of later values. -/
theorem fmt_deterministic_and_isolated (E : RegisterDebugInfo)
    (s : RegisterDebugValue) (hw hw' : Nat → Nat) (t : Nat) (h : hw t = hw' t) :
    (renderTwice s).1 = (renderTwice s).2 ∧
    RegisterDebugValue.fmt (captureSnapshot E hw t) =
      RegisterDebugValue.fmt ⟨hw t, E⟩ ∧
    RegisterDebugValue.fmt (captureSnapshot E hw t) =
      RegisterDebugValue.fmt (captureSnapshot E hw' t) := by
  refine ⟨rfl, rfl, ?_⟩
  unfold captureSnapshot
  rw [h]

/-- Witness for C7: two hardware histories agreeing at instant 0 but
diverging afterwards render identically. -/
theorem fmt_deterministic_and_isolated_witness :
    (renderTwice ⟨599, exampleR⟩).1 = (renderTwice ⟨599, exampleR⟩).2 ∧
    RegisterDebugValue.fmt
        (captureSnapshot exampleR (fun _ => 599) 0) =
      RegisterDebugValue.fmt ⟨(fun _ => 599) 0, exampleR⟩ ∧
    RegisterDebugValue.fmt (captureSnapshot exampleR (fun _ => 599) 0) =
      RegisterDebugValue.fmt
        (captureSnapshot exampleR (fun n => if n = 0 then 599 else 0) 0) :=
  fmt_deterministic_and_isolated exampleR ⟨599, exampleR⟩
    (fun _ => 599) (fun n => if n = 0 then 599 else 0) 0 rfl

/-- C8: a chain of length 0 with empty field_names and fields is legal:
rendering completes without error and produces the empty aggregate, the
register name with zero (name, value) pairs. -/
theorem empty_chain_renders_empty_aggregate (nm : String) (d : Nat) :
    RegisterDebugValue.fmt ⟨d, ⟨nm, [], [], FieldValueEnumSeq.nil⟩⟩ =
      Except.ok (DebugStruct.finish ⟨nm, []⟩) ∧
    DebugStruct.finish ⟨nm, []⟩ = nm ∧
    excIsError (RegisterDebugValue.fmt ⟨d, ⟨nm, [], [], FieldValueEnumSeq.nil⟩⟩) = false :=
  ⟨rfl, rfl, rfl⟩

/-- C9: the fatal path is one-directional: rendering aborts exactly when
the chain length N exceeds the length of field_names or of fields; when
the chain is no longer than both slices, rendering completes and emits
exactly the first N (name, value) pairs, the excess names and field
descriptors absent from the output. -/
theorem fmt_panics_iff_chain_longer (E : RegisterDebugInfo) (d : Nat) :
    (excIsError (RegisterDebugValue.fmt ⟨d, E⟩) = true ↔
      E.field_names.length < E.fieldValueEnumTypes.length ∨
      E.fields.length < E.fieldValueEnumTypes.length) ∧
    (E.fieldValueEnumTypes.length ≤ E.field_names.length →
     E.fieldValueEnumTypes.length ≤ E.fields.length →
     RegisterDebugValue.fmt ⟨d, E⟩ =
       Except.ok (DebugStruct.finish ⟨E.name,
         specPairs d E.fieldValueEnumTypes E.field_names E.fields⟩) ∧
     (specPairs d E.fieldValueEnumTypes E.field_names E.fields).length =
       E.fieldValueEnumTypes.length) := by
  constructor
  · constructor
    · intro herr
      by_contra hc
      push_neg at hc
      rw [fmt_ok_of_aligned E d hc.1 hc.2] at herr
      simp [excIsError] at herr
    · intro hlt
      rw [fmt_error_of_short E d hlt]
      rfl
  · intro ha hb
    exact ⟨fmt_ok_of_aligned E d ha hb,
      specPairs_length d E.fieldValueEnumTypes E.field_names E.fields ha hb⟩

/-- Witness for C9: the example descriptor completes and emits all three
pairs. -/
theorem fmt_panics_iff_chain_longer_witness :
    RegisterDebugValue.fmt ⟨599, exampleR⟩ =
      Except.ok (DebugStruct.finish ⟨exampleR.name,
        specPairs 599 exampleR.fieldValueEnumTypes exampleR.field_names exampleR.fields⟩) ∧
    (specPairs 599 exampleR.fieldValueEnumTypes exampleR.field_names exampleR.fields).length =
      exampleR.fieldValueEnumTypes.length :=
  (fmt_panics_iff_chain_longer exampleR 599).2 (by decide) (by decide)

/-- C10: rendering does not modify the snapshot: the two closures driven
by fmt only ever read the stored register value, every state a completed
walk or a single closure step produces carries the stored value unchanged,
and re-rendering the same snapshot gives the same result. -/
theorem fmt_does_not_modify_snapshot :
    (∀ (c : FieldValueEnumSeq Nat String) (s s' : FmtState),
      recurse_try_from_value fmtData fmtDebugField c s = Except.ok s' →
      s'.self_data = s.self_data) ∧
    (∀ (s : FmtState) (u : Nat) (s' : FmtState),
      fmtData s = Except.ok (u, s') → s'.self_data = s.self_data) ∧
    (∀ (s : FmtState) (r : Rendered Nat String) (s' : FmtState),
      fmtDebugField s r = Except.ok s' → s'.self_data = s.self_data) ∧
    (∀ snap : RegisterDebugValue,
      RegisterDebugValue.fmt snap = RegisterDebugValue.fmt snap) := by
  refine ⟨walk_fmt_self_data, ?_, ?_, fun _ => rfl⟩
  · intro s u s' h
    obtain ⟨d, names, flds, ds⟩ := s
    cases flds with
    | nil => simp [fmtData] at h
    | cons fld fs =>
      simp [fmtData] at h
      rw [← h.2]
  · intro s r s' h
    obtain ⟨d, names, flds, ds⟩ := s
    cases names with
    | nil => simp [fmtDebugField] at h
    | cons nm nms =>
      simp [fmtDebugField] at h
      rw [← h]

/-- Witness for C10: the full walk over the example chain leaves the
stored value 599 in place. -/
theorem fmt_does_not_modify_snapshot_witness :
    (⟨599, [], [], ⟨"R", [("f0", "7"), ("f1", "Y"), ("f2", "9")]⟩⟩ : FmtState).self_data =
      (⟨599, ["f0", "f1", "f2"], [⟨15, 0⟩, ⟨3, 4⟩, ⟨15, 6⟩], ⟨"R", []⟩⟩ : FmtState).self_data :=
  fmt_does_not_modify_snapshot.1 exampleR.fieldValueEnumTypes
    ⟨599, ["f0", "f1", "f2"], [⟨15, 0⟩, ⟨3, 4⟩, ⟨15, 6⟩], ⟨"R", []⟩⟩
    ⟨599, [], [], ⟨"R", [("f0", "7"), ("f1", "Y"), ("f2", "9")]⟩⟩ rfl

end TockRegisterDebug
